import Mathlib

/-!
Verification of the event loop and module system of a small embeddable
JavaScript runtime (`src/event_loop.cpp`, `src/module.cpp`).

The C++ code is shallowly embedded: the event loop's mutable state
(`task_queue_`, `delayed_tasks_`, `running_`, `next_task_id_`) becomes an
explicit state record, and each member function becomes a state-passing
function.  `std::map<uint64_t, ...>` is modelled as an association list kept
sorted by key (the map's iteration order), `std::queue` as a list whose head
is the queue front.  Tasks are opaque units of work carrying a label and an
outcome, matching the fact that invoking a C++
`std::function<void()>` either returns or throws.
-/

/-- A task: an opaque zero-argument unit of work.  `label` identifies it for
specification purposes; `run` is what invoking it does: `none` for a normal
return, `some e` for a thrown exception with message `e`. -/
structure JsTask where
  label : Nat
  run : Option String
deriving DecidableEq, Repr

/-- One entry of `delayed_tasks_`: the map value
`std::pair<time_point, std::function<void()>>`. -/
structure DelayedEntry where
  due : Nat
  work : JsTask
deriving DecidableEq, Repr

/-- The mutable state of `EventLoop`.  `ran` records the labels of tasks the
loop has invoked, in invocation order; `errors` records the messages logged by
the catch blocks at the task-invocation boundary (observation logs, not C++
fields). -/
structure LoopState where
  running : Bool
  nextTaskId : Nat
  taskQueue : List JsTask
  delayedTasks : List (Nat × DelayedEntry)
  ran : List Nat
  errors : List String
deriving DecidableEq, Repr

namespace EventLoop

/-- `std::map::find`-style lookup in the sorted association list (first match
by key). -/
def mapLookup (k : Nat) : List (Nat × DelayedEntry) → Option DelayedEntry
  | [] => none
  | (k', v) :: rest => if k = k' then some v else mapLookup k rest

/-- `std::map::operator[]` insertion: keeps the list sorted by key, replacing
an existing entry with the same key. -/
def mapInsert (k : Nat) (v : DelayedEntry) : List (Nat × DelayedEntry) →
    List (Nat × DelayedEntry)
  | [] => [(k, v)]
  | (k', v') :: rest =>
    if k < k' then (k, v) :: (k', v') :: rest
    else if k = k' then (k, v) :: rest
    else (k', v') :: mapInsert k v rest

/-- `std::map::erase(key)`: removes the entry with the given key, if present. -/
def mapErase (k : Nat) : List (Nat × DelayedEntry) → List (Nat × DelayedEntry)
  | [] => []
  | (k', v') :: rest => if k = k' then rest else (k', v') :: mapErase k rest

/-- The `std::map` representation invariant: keys strictly increase along the
list (the map's iteration order). -/
def keysSorted (l : List (Nat × DelayedEntry)) : Prop :=
  l.Pairwise (fun a b => a.1 < b.1)

instance (l : List (Nat × DelayedEntry)) : Decidable (keysSorted l) := by
  unfold keysSorted; infer_instance

/-- `EventLoop::ScheduleTask`: push the task at the back of `task_queue_`. -/
def ScheduleTask (task : JsTask) (s : LoopState) : LoopState :=
  { s with taskQueue := s.taskQueue ++ [task] }

/-- `EventLoop::ScheduleDelayedTask`: allocate a fresh id, store
`(now + delay, task)` in `delayed_tasks_`, return the id. -/
def ScheduleDelayedTask (task : JsTask) (delay : Nat) (now : Nat)
    (s : LoopState) : Nat × LoopState :=
  let taskId := s.nextTaskId
  (taskId,
    { s with
        nextTaskId := taskId + 1
        delayedTasks := mapInsert taskId ⟨now + delay, task⟩ s.delayedTasks })

/-- `EventLoop::CancelDelayedTask`: erase the entry, a no-op if absent. -/
def CancelDelayedTask (taskId : Nat) (s : LoopState) : LoopState :=
  { s with delayedTasks := mapErase taskId s.delayedTasks }

/-- The scan inside `EventLoop::ProcessDelayedTasks`: walk `delayed_tasks_` in
iteration order; an entry with `due <= now` is erased and its work collected
into `tasks_to_run`, otherwise the iterator advances. Returns
(`tasks_to_run`, the remaining map). -/
def collectDue (now : Nat) : List (Nat × DelayedEntry) →
    List JsTask × List (Nat × DelayedEntry)
  | [] => ([], [])
  | (k, e) :: rest =>
    let (toRun, remaining) := collectDue now rest
    if e.due ≤ now then (e.work :: toRun, remaining)
    else (toRun, (k, e) :: remaining)

/-- `EventLoop::ProcessDelayedTasks`: collect the due entries, then
`ScheduleTask` each collected task in order. -/
def ProcessDelayedTasks (now : Nat) (s : LoopState) : LoopState :=
  let (toRun, remaining) := collectDue now s.delayedTasks
  (toRun.foldl (fun st t => ScheduleTask t st)
    { s with delayedTasks := remaining })

/-- The task-invocation boundary in `EventLoop::Run`: `task()` inside
`try`/`catch`.  A thrown exception is logged to `errors` and swallowed. -/
def executeTask (t : JsTask) (s : LoopState) : LoopState :=
  match t.run with
  | none => { s with ran := s.ran ++ [t.label] }
  | some e => { s with ran := s.ran ++ [t.label], errors := s.errors ++ [e] }

/-- One pass of the `while` loop in `EventLoop::Run`: if `running_` is false
the loop exits (state unchanged); otherwise promote due timers, then either
wait (queue empty) or pop the front task and invoke it under `try`/`catch`. -/
def RunIteration (now : Nat) (s : LoopState) : LoopState :=
  if s.running then
    let s1 := ProcessDelayedTasks now s
    match s1.taskQueue with
    | [] => s1
    | t :: rest => executeTask t { s1 with taskQueue := rest }
  else s

/-- `fuel` passes of the loop, at a fixed clock reading. -/
def RunSteps (fuel : Nat) (now : Nat) (s : LoopState) : LoopState :=
  match fuel with
  | 0 => s
  | n + 1 => RunSteps n now (RunIteration now s)

/-- `EventLoop::Stop`: if not running, return immediately; else clear
`running_` (the join of the execution thread has no counterpart in the state). -/
def Stop (s : LoopState) : LoopState :=
  if s.running then { s with running := false } else s

end EventLoop

/-- A handle to a V8 object: object identity matters (same handle = same
object), so handles are modelled as numbers. -/
abbrev VObj := Nat

/-- The fields of a `Module` object (`id_`, `filename_`, `exports_`,
`loaded_`). -/
structure ModuleRec where
  id : String
  filename : String
  exports : VObj
  loaded : Bool
deriving DecidableEq, Repr

/-- The external collaborators `Module::Load` calls into, keyed by the module
filename: whether `std::ifstream` opens it, whether each V8 step
(`Script::Compile`, `Script::Run`, `Function::Call`, `module->Get`) succeeds,
and the object `module.exports` holds after a successful evaluation. -/
structure Env where
  fileOk : String → Bool
  compileOk : String → Bool
  runOk : String → Bool
  callOk : String → Bool
  getExportsOk : String → Bool
  exportsOf : String → VObj

/-- The mutable state of `ModuleSystem`.  `nextObj` allocates fresh object
handles (each `v8::Object::New` returns a new object); `evalLog` records the
filenames whose module body was invoked (`module_func->Call`), in order — the
observation that counts top-level side effects. -/
structure MSState where
  modules : List (String × ModuleRec)
  nativeModules : List (String × VObj)
  nextObj : Nat
  evalLog : List String
deriving DecidableEq, Repr

namespace ModuleSystem

/-- `std::unordered_map::find` on an association list (first match). -/
def alookup {α : Type} (k : String) : List (String × α) → Option α
  | [] => none
  | (k', v) :: rest => if k = k' then some v else alookup k rest

/-- `std::unordered_map::operator[]` assignment: replace the entry if the key
exists, else add it. -/
def ainsert {α : Type} (k : String) (v : α) : List (String × α) →
    List (String × α)
  | [] => [(k, v)]
  | (k', v') :: rest =>
    if k = k' then (k, v) :: rest else (k', v') :: ainsert k v rest

/-- `ModuleSystem::ResolveModuleId`: append `.js` to the module id. -/
def ResolveModuleId (module_id : String) : String :=
  module_id ++ ".js"

/-- `Module::Load`: early-return if already loaded; then open the file,
compile the wrapped source, run the script, call the module function, and read
back `module.exports`.  Returns the updated module (`none` on failure) paired
with the evaluation events performed: the module body runs exactly when
`module_func->Call` is reached, so every branch at or after that point records
one event. -/
def LoadModule (env : Env) (m : ModuleRec) : Option ModuleRec × List String :=
  if m.loaded then (some m, [])
  else if !env.fileOk m.filename then (none, [])
  else if !env.compileOk m.filename then (none, [])
  else if !env.runOk m.filename then (none, [])
  else if !env.callOk m.filename then (none, [m.filename])
  else if !env.getExportsOk m.filename then (none, [m.filename])
  else (some { m with exports := env.exportsOf m.filename, loaded := true },
    [m.filename])

/-- `ModuleSystem::Require`: native registry first, then the script-module
cache, then resolve and load; a failed resolution or load returns a fresh
empty object (`v8::Object::New`) and caches nothing; a successful load is
cached under the raw `module_id`. -/
def Require (env : Env) (s : MSState) (module_id : String) : VObj × MSState :=
  match alookup module_id s.nativeModules with
  | some e => (e, s)
  | none =>
    match alookup module_id s.modules with
    | some m => (m.exports, s)
    | none =>
      let filename := ResolveModuleId module_id
      if filename.isEmpty then
        (s.nextObj, { s with nextObj := s.nextObj + 1 })
      else
        match LoadModule env ⟨module_id, filename, 0, false⟩ with
        | (none, ev) =>
          (s.nextObj,
            { s with nextObj := s.nextObj + 1, evalLog := s.evalLog ++ ev })
        | (some m2, ev) =>
          (m2.exports,
            { s with modules := (module_id, m2) :: s.modules,
                     evalLog := s.evalLog ++ ev })

/-- `ModuleSystem::RegisterNativeModule`: insert/overwrite in the native
registry. -/
def RegisterNativeModule (s : MSState) (module_id : String) (exports : VObj) :
    MSState :=
  { s with nativeModules := ainsert module_id exports s.nativeModules }

end ModuleSystem

/-- A concrete task that returns normally. -/
def taskA : JsTask := ⟨100, none⟩

/-- A second concrete task that returns normally. -/
def taskB : JsTask := ⟨200, none⟩

/-- A concrete task whose invocation throws. -/
def taskFail : JsTask := ⟨300, some "boom"⟩

/-- A running loop with two pending timers: id 1 due at 10 carrying `taskA`,
id 2 due at 5 carrying `taskB`. -/
def loop0 : LoopState :=
  { running := true, nextTaskId := 3, taskQueue := [],
    delayedTasks := [(1, ⟨10, taskA⟩), (2, ⟨5, taskB⟩)],
    ran := [], errors := [] }

/-- A running loop with nothing queued and no timers. -/
def loopIdle : LoopState :=
  { running := true, nextTaskId := 1, taskQueue := [],
    delayedTasks := [], ran := [], errors := [] }

/-- A running loop whose front task throws. -/
def loopFail : LoopState :=
  { running := true, nextTaskId := 1, taskQueue := [taskFail, taskA],
    delayedTasks := [], ran := [], errors := [] }

/-- A running loop whose front task throws while timers are pending: id 1
(due at 0, carrying `taskB`) is already due, id 2 (due at 50, carrying
`taskA`) is not. -/
def loopFailTimers : LoopState :=
  { running := true, nextTaskId := 3, taskQueue := [taskFail, taskA],
    delayedTasks := [(1, ⟨0, taskB⟩), (2, ⟨50, taskA⟩)],
    ran := [], errors := [] }

/-- An environment where every file opens and every engine step succeeds,
producing exports object 7. -/
def envAllOk : Env :=
  { fileOk := fun _ => true, compileOk := fun _ => true,
    runOk := fun _ => true, callOk := fun _ => true,
    getExportsOk := fun _ => true, exportsOf := fun _ => 7 }

/-- An environment where no file can be opened. -/
def envNoFile : Env :=
  { fileOk := fun _ => false, compileOk := fun _ => true,
    runOk := fun _ => true, callOk := fun _ => true,
    getExportsOk := fun _ => true, exportsOf := fun _ => 7 }

/-- A module system with no cached and no native modules. -/
def msEmpty : MSState :=
  { modules := [], nativeModules := [], nextObj := 0, evalLog := [] }

/-- A module system where the id `util` is both a registered native module
(exports object 42) and a cached script module (exports object 99). -/
def msUtil : MSState :=
  { modules := [("util", ⟨"util", "util.js", 99, true⟩)],
    nativeModules := [("util", 42)], nextObj := 0, evalLog := [] }

/-- The module system state after one successful load of `m`. -/
def msM : MSState :=
  { modules := [("m", ⟨"m", "m.js", 7, true⟩)], nativeModules := [],
    nextObj := 0, evalLog := ["m.js"] }

namespace EventLoop

theorem foldl_scheduleTask_eq (ts : List JsTask) (s : LoopState) :
    ts.foldl (fun st t => ScheduleTask t st) s =
      { s with taskQueue := s.taskQueue ++ ts } := by
  induction ts generalizing s with
  | nil => simp
  | cons t tl ih =>
    rw [List.foldl_cons, ih]
    simp [ScheduleTask]

theorem collectDue_eq (now : Nat) (l : List (Nat × DelayedEntry)) :
    collectDue now l =
      ((l.filter fun e => decide (e.2.due ≤ now)).map (fun e => e.2.work),
       l.filter fun e => !decide (e.2.due ≤ now)) := by
  induction l with
  | nil => rfl
  | cons hd tl ih =>
    obtain ⟨k, e⟩ := hd
    unfold collectDue
    rw [ih]
    by_cases h : e.due ≤ now <;> simp [h, List.filter_cons]

theorem processDelayedTasks_eq (now : Nat) (s : LoopState) :
    ProcessDelayedTasks now s =
      { s with
          taskQueue := s.taskQueue ++
            ((s.delayedTasks.filter fun e => decide (e.2.due ≤ now)).map
              (fun e => e.2.work)),
          delayedTasks :=
            s.delayedTasks.filter fun e => !decide (e.2.due ≤ now) } := by
  unfold ProcessDelayedTasks
  rw [collectDue_eq]
  dsimp only
  rw [foldl_scheduleTask_eq]

theorem runIteration_not_running (now : Nat) (s : LoopState)
    (h : s.running = false) : RunIteration now s = s := by
  unfold RunIteration
  rw [h]
  simp

theorem runIteration_pop (now : Nat) (s : LoopState) (t : JsTask)
    (rest : List JsTask) (hrun : s.running = true)
    (hd : s.delayedTasks = []) (hq : s.taskQueue = t :: rest) :
    RunIteration now s =
      { s with taskQueue := rest, ran := s.ran ++ [t.label],
               errors := s.errors ++ t.run.toList } := by
  unfold RunIteration
  rw [hrun]
  simp only [if_true, processDelayedTasks_eq, hd, hq]
  cases hr : t.run <;>
    simp [executeTask, hr, hrun, Option.toList]

theorem runSteps_fifo (ts : List JsTask) (now : Nat) (s : LoopState)
    (hrun : s.running = true) (hd : s.delayedTasks = [])
    (hq : s.taskQueue = ts) :
    RunSteps ts.length now s =
      { s with taskQueue := [], ran := s.ran ++ ts.map (fun t => t.label),
               errors := s.errors ++ ts.filterMap (fun t => t.run) } := by
  induction ts generalizing s with
  | nil =>
    simp only [List.length_nil, RunSteps]
    cases s
    simp_all
  | cons t tl ih =>
    rw [List.length_cons]
    show RunSteps tl.length now (RunIteration now s) = _
    rw [runIteration_pop now s t tl hrun hd hq]
    rw [ih _ (by simp [hrun]) (by simp [hd]) (by simp)]
    cases hr : t.run <;> simp [hr, Option.toList]

theorem runIteration_pop_due (now : Nat) (s : LoopState) (t : JsTask)
    (rest : List JsTask) (hrun : s.running = true)
    (hq : s.taskQueue = t :: rest) :
    RunIteration now s =
      { s with
          taskQueue := rest ++
            ((s.delayedTasks.filter fun e => decide (e.2.due ≤ now)).map
              (fun e => e.2.work)),
          delayedTasks :=
            s.delayedTasks.filter (fun e => !decide (e.2.due ≤ now)),
          ran := s.ran ++ [t.label],
          errors := s.errors ++ t.run.toList } := by
  unfold RunIteration
  rw [hrun]
  simp only [if_true, processDelayedTasks_eq, hq, List.cons_append]
  cases hr : t.run <;>
    simp [executeTask, hr, hrun, Option.toList]

theorem filter_notDue_of_no_due (now : Nat) (l : List (Nat × DelayedEntry))
    (h : l.filter (fun e => decide (e.2.due ≤ now)) = []) :
    l.filter (fun e => !decide (e.2.due ≤ now)) = l := by
  induction l with
  | nil => rfl
  | cons hd tl ih =>
    rw [List.filter_cons] at h
    by_cases hdue : hd.2.due ≤ now
    · rw [if_pos (by simp [hdue])] at h
      exact absurd h (by simp)
    · rw [if_neg (by simp [hdue])] at h
      rw [List.filter_cons, if_pos (by simp [hdue]), ih h]

theorem filter_due_filter_notDue (now : Nat)
    (l : List (Nat × DelayedEntry)) :
    ((l.filter fun e => !decide (e.2.due ≤ now)).filter
      (fun e => decide (e.2.due ≤ now))) = [] := by
  induction l with
  | nil => rfl
  | cons hd tl ih =>
    rw [List.filter_cons]
    by_cases hdue : hd.2.due ≤ now
    · rw [if_neg (by simp [hdue])]
      exact ih
    · rw [if_pos (by simp [hdue]), List.filter_cons,
        if_neg (by simp [hdue])]
      exact ih

theorem processDelayedTasks_no_due (now : Nat) (s : LoopState)
    (h : s.delayedTasks.filter (fun e => decide (e.2.due ≤ now)) = []) :
    ProcessDelayedTasks now s = s := by
  rw [processDelayedTasks_eq, h, filter_notDue_of_no_due now s.delayedTasks h]
  simp

theorem runIteration_pop_no_due (now : Nat) (s : LoopState) (t : JsTask)
    (rest : List JsTask) (hrun : s.running = true)
    (hnd : s.delayedTasks.filter (fun e => decide (e.2.due ≤ now)) = [])
    (hq : s.taskQueue = t :: rest) :
    RunIteration now s =
      { s with taskQueue := rest, ran := s.ran ++ [t.label],
               errors := s.errors ++ t.run.toList } := by
  unfold RunIteration
  rw [hrun]
  simp only [if_true, processDelayedTasks_no_due now s hnd, hq]
  cases hr : t.run <;>
    simp [executeTask, hr, hrun, Option.toList]

theorem runSteps_fifo_no_due (ts : List JsTask) (now : Nat) (s : LoopState)
    (hrun : s.running = true)
    (hnd : s.delayedTasks.filter (fun e => decide (e.2.due ≤ now)) = [])
    (hq : s.taskQueue = ts) :
    RunSteps ts.length now s =
      { s with taskQueue := [], ran := s.ran ++ ts.map (fun t => t.label),
               errors := s.errors ++ ts.filterMap (fun t => t.run) } := by
  induction ts generalizing s with
  | nil =>
    simp only [List.length_nil, RunSteps]
    cases s
    simp_all
  | cons t tl ih =>
    rw [List.length_cons]
    show RunSteps tl.length now (RunIteration now s) = _
    rw [runIteration_pop_no_due now s t tl hrun hnd hq]
    rw [ih _ (by exact hrun) (by exact hnd) rfl]
    cases hr : t.run <;> simp [hr, Option.toList]

theorem mem_mapInsert (k : Nat) (v : DelayedEntry)
    (l : List (Nat × DelayedEntry)) (x : Nat × DelayedEntry)
    (hx : x ∈ mapInsert k v l) : x = (k, v) ∨ x ∈ l := by
  induction l with
  | nil => simpa [mapInsert] using hx
  | cons hd tl ih =>
    obtain ⟨k', v'⟩ := hd
    rcases Nat.lt_trichotomy k k' with h1 | h1 | h1
    · rw [mapInsert, if_pos h1] at hx
      rcases List.mem_cons.mp hx with hx0 | hx
      · exact Or.inl hx0
      · exact Or.inr hx
    · rw [mapInsert, if_neg (by omega), if_pos h1] at hx
      rcases List.mem_cons.mp hx with hx0 | hx
      · exact Or.inl hx0
      · exact Or.inr (List.mem_cons_of_mem _ hx)
    · rw [mapInsert, if_neg (by omega), if_neg (by omega)] at hx
      rcases List.mem_cons.mp hx with hx0 | hx
      · exact Or.inr (hx0 ▸ List.mem_cons_self _ _)
      · rcases ih hx with h' | h'
        · exact Or.inl h'
        · exact Or.inr (List.mem_cons_of_mem _ h')

theorem mapInsert_keysSorted (k : Nat) (v : DelayedEntry)
    (l : List (Nat × DelayedEntry)) (hl : keysSorted l) :
    keysSorted (mapInsert k v l) := by
  induction l with
  | nil => simp [mapInsert, keysSorted]
  | cons hd tl ih =>
    obtain ⟨k', v'⟩ := hd
    rw [keysSorted, List.pairwise_cons] at hl
    obtain ⟨hlt, htl⟩ := hl
    rcases Nat.lt_trichotomy k k' with h1 | h1 | h1
    · rw [mapInsert, if_pos h1, keysSorted, List.pairwise_cons]
      refine ⟨?_, ?_⟩
      · intro x hx
        rcases hx with _ | hx
        · exact h1
        · exact h1.trans (hlt x (by assumption))
      · rw [List.pairwise_cons]
        exact ⟨hlt, htl⟩
    · rw [mapInsert, if_neg (by omega), if_pos h1, keysSorted,
        List.pairwise_cons]
      exact ⟨fun x hx => h1 ▸ hlt x hx, htl⟩
    · rw [mapInsert, if_neg (by omega), if_neg (by omega), keysSorted,
        List.pairwise_cons]
      refine ⟨?_, ih htl⟩
      intro x hx
      rcases mem_mapInsert k v tl x hx with h | h
      · subst h
        exact h1
      · exact hlt x h

theorem mapErase_of_lookup_none (k : Nat) (l : List (Nat × DelayedEntry))
    (h : mapLookup k l = none) : mapErase k l = l := by
  induction l with
  | nil => rfl
  | cons hd tl ih =>
    obtain ⟨k', v'⟩ := hd
    by_cases he : k = k'
    · rw [mapLookup, if_pos he] at h
      exact absurd h (by simp)
    · rw [mapLookup, if_neg he] at h
      rw [mapErase, if_neg he, ih h]

theorem mapLookup_mapErase_ne (k j : Nat) (l : List (Nat × DelayedEntry))
    (h : j ≠ k) : mapLookup j (mapErase k l) = mapLookup j l := by
  induction l with
  | nil => rfl
  | cons hd tl ih =>
    obtain ⟨k', v'⟩ := hd
    by_cases he : k = k'
    · rw [mapErase, if_pos he, mapLookup, if_neg (he ▸ h)]
    · rw [mapErase, if_neg he]
      by_cases hj : j = k'
      · rw [mapLookup, if_pos hj, mapLookup, if_pos hj]
      · rw [mapLookup, if_neg hj, mapLookup, if_neg hj, ih]

theorem mapLookup_eq_none_of_forall_ne (k : Nat)
    (l : List (Nat × DelayedEntry)) (h : ∀ x ∈ l, x.1 ≠ k) :
    mapLookup k l = none := by
  induction l with
  | nil => rfl
  | cons hd tl ih =>
    have hk : k ≠ hd.1 := fun he => h hd (by simp) he.symm
    obtain ⟨k', v'⟩ := hd
    rw [mapLookup, if_neg hk]
    exact ih fun x hx => h x (List.mem_cons_of_mem _ hx)

theorem mapLookup_filter_due_none (now k : Nat)
    (l : List (Nat × DelayedEntry)) (en : DelayedEntry)
    (hs : keysSorted l) (hl : mapLookup k l = some en) (hdue : en.due ≤ now) :
    mapLookup k (l.filter fun e => !decide (e.2.due ≤ now)) = none := by
  induction l with
  | nil => simp [mapLookup] at hl
  | cons hd tl ih =>
    obtain ⟨k', v'⟩ := hd
    rw [keysSorted, List.pairwise_cons] at hs
    obtain ⟨hlt, htl⟩ := hs
    by_cases he : k = k'
    · rw [mapLookup, if_pos he] at hl
      injection hl with hl
      subst hl
      rw [List.filter_cons, if_neg (by simp [hdue])]
      refine mapLookup_eq_none_of_forall_ne _ _ ?_
      intro x hx
      have hx' : x ∈ tl := List.mem_of_mem_filter hx
      have := hlt x hx'
      omega
    · rw [mapLookup, if_neg he] at hl
      rw [List.filter_cons]
      by_cases hd' : v'.due ≤ now
      · rw [if_neg (by simp [hd'])]
        exact ih htl hl
      · rw [if_pos (by simp [hd']), mapLookup, if_neg he]
        exact ih htl hl

theorem keysSorted_nodup (l : List (Nat × DelayedEntry)) (h : keysSorted l) :
    (l.map Prod.fst).Nodup := by
  have hp : (l.map Prod.fst).Pairwise (· < ·) :=
    List.Pairwise.map Prod.fst (fun a b hab => hab) h
  exact List.Pairwise.imp (fun hab => Nat.ne_of_lt hab) hp

theorem stop_running_false (s : LoopState) : (Stop s).running = false := by
  unfold Stop
  by_cases h : s.running <;> simp [h]

theorem runSteps_stopped (fuel now : Nat) (s : LoopState)
    (h : s.running = false) : RunSteps fuel now s = s := by
  induction fuel with
  | zero => rfl
  | succ n ih =>
    show RunSteps n now (RunIteration now s) = s
    rw [runIteration_not_running now s h, ih]

end EventLoop

namespace ModuleSystem

theorem resolve_ne_empty (i : String) : ResolveModuleId i ≠ "" := by
  intro h
  have hlen := congrArg String.length h
  rw [ResolveModuleId, String.length_append] at hlen
  have h3 : (".js" : String).length = 3 := by decide
  have h0 : ("" : String).length = 0 := by decide
  omega

theorem loadModule_loaded (env : Env) (m m2 : ModuleRec) (ev : List String)
    (hml : m.loaded = false) (h : LoadModule env m = (some m2, ev)) :
    m2.loaded = true := by
  unfold LoadModule at h
  rw [hml] at h
  by_cases h1 : env.fileOk m.filename = true <;>
    by_cases h2 : env.compileOk m.filename = true <;>
      by_cases h3 : env.runOk m.filename = true <;>
        by_cases h4 : env.callOk m.filename = true <;>
          by_cases h5 : env.getExportsOk m.filename = true <;>
            simp [h1, h2, h3, h4, h5] at h
  all_goals rw [← h.1]

theorem resolve_isEmpty_false (i : String) :
    (ResolveModuleId i).isEmpty = false := by
  by_contra h
  rw [Bool.not_eq_false] at h
  exact resolve_ne_empty i ((String.isEmpty_iff _).mp h)

theorem require_miss_eq (env : Env) (s : MSState) (i : String)
    (hn : alookup i s.nativeModules = none)
    (hm : alookup i s.modules = none) :
    Require env s i =
      (match LoadModule env ⟨i, ResolveModuleId i, 0, false⟩ with
       | (none, ev) =>
         (s.nextObj,
           { s with nextObj := s.nextObj + 1, evalLog := s.evalLog ++ ev })
       | (some m2, ev) =>
         (m2.exports,
           { s with modules := (i, m2) :: s.modules,
                    evalLog := s.evalLog ++ ev })) := by
  unfold Require
  rw [hn, hm]
  dsimp only
  rw [if_neg (by simp [resolve_isEmpty_false i])]

end ModuleSystem

/-- C1, counterexample.  In `loop0` the timer with id 2 is due at 5 and the
timer with id 1 is due at 10; at `now = 10` both are due in the same polling
pass, yet the pass enqueues `taskA` (due at 10) before `taskB` (due at 5):
`std::map` iteration promotes due timers in ascending id order, not in
due-time order, so the task due earlier does not execute first. -/
theorem c1_counterexample :
    (1, (⟨10, taskA⟩ : DelayedEntry)) ∈ loop0.delayedTasks ∧
    (2, (⟨5, taskB⟩ : DelayedEntry)) ∈ loop0.delayedTasks ∧
    (5 : Nat) < 10 ∧ (5 : Nat) ≤ 10 ∧ (10 : Nat) ≤ 10 ∧
    (EventLoop.ProcessDelayedTasks 10 loop0).taskQueue = [taskA, taskB] ∧
    taskA ≠ taskB := by
  refine ⟨?_, ?_, ?_, ?_, ?_, ?_, ?_⟩ <;> decide

/-- C1, amended: in every polling pass, exactly the timer-store entries whose
due time is `<= now` are removed and their work is appended to the task queue
in ascending id order (the `std::map` iteration order, i.e. scheduling
order) — not in due-time order. -/
theorem c1_amended_promotion_in_id_order (now : Nat) (s : LoopState)
    (h : EventLoop.keysSorted s.delayedTasks) :
    (EventLoop.ProcessDelayedTasks now s).taskQueue =
      s.taskQueue ++
        ((s.delayedTasks.filter fun e => decide (e.2.due ≤ now)).map
          (fun e => e.2.work)) ∧
    (EventLoop.ProcessDelayedTasks now s).delayedTasks =
      s.delayedTasks.filter (fun e => !decide (e.2.due ≤ now)) ∧
    (s.delayedTasks.filter fun e => decide (e.2.due ≤ now)).Pairwise
      (fun a b => a.1 < b.1) := by
  refine ⟨?_, ?_, ?_⟩
  · rw [EventLoop.processDelayedTasks_eq]
  · rw [EventLoop.processDelayedTasks_eq]
  · exact List.Pairwise.filter _ h

/-- C1, witness for the amended theorem at `loop0`, `now = 10`. -/
theorem c1_amended_witness :
    EventLoop.keysSorted loop0.delayedTasks ∧
    (EventLoop.ProcessDelayedTasks 10 loop0).taskQueue =
      loop0.taskQueue ++
        ((loop0.delayedTasks.filter fun e => decide (e.2.due ≤ 10)).map
          (fun e => e.2.work)) :=
  ⟨by decide, (c1_amended_promotion_in_id_order 10 loop0 (by decide)).1⟩

/-- C6: FIFO execution.  Starting from a running loop with an empty queue and
no pending timers, scheduling any sequence of tasks via `ScheduleTask` puts
them in the queue in call order, and running the loop executes exactly those
callbacks in that same order, one task popped from the front per iteration,
emptying the queue. -/
theorem c6_fifo_execution (now : Nat) (s : LoopState) (ts : List JsTask)
    (hrun : s.running = true) (hd : s.delayedTasks = [])
    (hq : s.taskQueue = []) :
    (ts.foldl (fun st t => EventLoop.ScheduleTask t st) s).taskQueue = ts ∧
    (EventLoop.RunSteps ts.length now
        (ts.foldl (fun st t => EventLoop.ScheduleTask t st) s)).ran =
      s.ran ++ ts.map (fun t => t.label) ∧
    (EventLoop.RunSteps ts.length now
        (ts.foldl (fun st t => EventLoop.ScheduleTask t st) s)).taskQueue =
      [] := by
  rw [EventLoop.foldl_scheduleTask_eq]
  rw [EventLoop.runSteps_fifo ts now _ (by simp [hrun]) (by simp [hd])
    (by simp [hq])]
  simp [hq]

/-- C6, witness: scheduling `taskA` then `taskB` on the idle loop runs label
100 before label 200. -/
theorem c6_witness :
    (EventLoop.RunSteps ([taskA, taskB].length) 10
        ([taskA, taskB].foldl (fun st t => EventLoop.ScheduleTask t st)
          loopIdle)).ran =
      loopIdle.ran ++ [taskA, taskB].map (fun t => t.label) :=
  (c6_fifo_execution 10 loopIdle [taskA, taskB] rfl rfl rfl).2.1

/-- C7: timer lifecycle.  (1) Scheduling a delayed task preserves the
timer-store invariant of strictly increasing (hence pairwise distinct) ids, so
at most one live entry exists per id; (2) an entry that is due and gets
promoted by a polling pass is removed from the store — its id no longer
resolves, and a subsequent `CancelDelayedTask` on it is a silent no-op; (3)
cancelling an id that is not in the store (unknown, already cancelled, or
already fired) leaves the whole state unchanged; (4) cancelling one id never
affects the entry of any other id. -/
theorem c7_timer_lifecycle :
    (∀ (t : JsTask) (delay now : Nat) (s : LoopState),
      EventLoop.keysSorted s.delayedTasks →
      EventLoop.keysSorted
          (EventLoop.ScheduleDelayedTask t delay now s).2.delayedTasks ∧
        ((EventLoop.ScheduleDelayedTask t delay now s).2.delayedTasks.map
            Prod.fst).Nodup) ∧
    (∀ (now : Nat) (s : LoopState) (i : Nat) (en : DelayedEntry),
      EventLoop.keysSorted s.delayedTasks →
      EventLoop.mapLookup i s.delayedTasks = some en → en.due ≤ now →
      EventLoop.mapLookup i
          (EventLoop.ProcessDelayedTasks now s).delayedTasks = none ∧
        EventLoop.CancelDelayedTask i (EventLoop.ProcessDelayedTasks now s) =
          EventLoop.ProcessDelayedTasks now s) ∧
    (∀ (s : LoopState) (i : Nat),
      EventLoop.mapLookup i s.delayedTasks = none →
      EventLoop.CancelDelayedTask i s = s) ∧
    (∀ (s : LoopState) (i j : Nat), j ≠ i →
      EventLoop.mapLookup j
          (EventLoop.CancelDelayedTask i s).delayedTasks =
        EventLoop.mapLookup j s.delayedTasks) := by
  refine ⟨?_, ?_, ?_, ?_⟩
  · intro t delay now s hs
    have h1 := EventLoop.mapInsert_keysSorted s.nextTaskId ⟨now + delay, t⟩
      s.delayedTasks hs
    exact ⟨h1, EventLoop.keysSorted_nodup _ h1⟩
  · intro now s i en hs hl hdue
    have hnone : EventLoop.mapLookup i
        (EventLoop.ProcessDelayedTasks now s).delayedTasks = none := by
      rw [EventLoop.processDelayedTasks_eq]
      exact EventLoop.mapLookup_filter_due_none now i s.delayedTasks en hs hl
        hdue
    refine ⟨hnone, ?_⟩
    unfold EventLoop.CancelDelayedTask
    rw [EventLoop.mapErase_of_lookup_none _ _ hnone]
  · intro s i h
    unfold EventLoop.CancelDelayedTask
    rw [EventLoop.mapErase_of_lookup_none _ _ h]
  · intro s i j hji
    unfold EventLoop.CancelDelayedTask
    exact EventLoop.mapLookup_mapErase_ne i j s.delayedTasks hji

/-- C7, witness: in `loop0`, after the polling pass at `now = 10` promotes id
1 it is gone from the store; cancelling the unknown id 5 on the idle loop is a
no-op; cancelling id 1 leaves id 2's entry intact. -/
theorem c7_witness :
    EventLoop.mapLookup 1
      (EventLoop.ProcessDelayedTasks 10 loop0).delayedTasks = none ∧
    EventLoop.CancelDelayedTask 5 loopIdle = loopIdle ∧
    EventLoop.mapLookup 2
        (EventLoop.CancelDelayedTask 1 loop0).delayedTasks =
      EventLoop.mapLookup 2 loop0.delayedTasks :=
  ⟨(c7_timer_lifecycle.2.1 10 loop0 1 ⟨10, taskA⟩ (by decide) (by decide)
      (by decide)).1,
   c7_timer_lifecycle.2.2.1 loopIdle 5 (by decide),
   c7_timer_lifecycle.2.2.2 loop0 1 2 (by decide)⟩

/-- C8: Stop discards everything.  `Stop` on an already-stopped loop is a
no-op and `Stop` is idempotent; after `Stop` the running flag is cleared and
no number of further loop passes executes any queued task or pending timer
(the whole state — including `taskQueue`, `delayedTasks` and the `ran` log —
is frozen), so work pending at stop time is discarded, never run. -/
theorem c8_stop_discards_everything (s : LoopState) (fuel now : Nat) :
    EventLoop.Stop { s with running := false } = { s with running := false } ∧
    EventLoop.Stop (EventLoop.Stop s) = EventLoop.Stop s ∧
    (EventLoop.Stop s).running = false ∧
    EventLoop.RunSteps fuel now (EventLoop.Stop s) = EventLoop.Stop s ∧
    (EventLoop.RunSteps fuel now (EventLoop.Stop s)).ran = s.ran := by
  have hrf := EventLoop.stop_running_false s
  have hsteps := EventLoop.runSteps_stopped fuel now (EventLoop.Stop s) hrf
  refine ⟨by simp [EventLoop.Stop], ?_, hrf, hsteps, ?_⟩
  · unfold EventLoop.Stop
    by_cases h : s.running <;> simp [h]
  · rw [hsteps]
    unfold EventLoop.Stop
    by_cases h : s.running <;> simp [h]

/-- C9: task failures are contained.  If the front task of a running loop
throws, the iteration that invokes it logs the failure at the
task-invocation boundary and leaves the loop running with that task
consumed; the pass still promotes exactly the due timers behind the failing
task into the queue and keeps every not-yet-due timer pending in the store;
the resulting state is identical to the one produced when the same task
succeeds, except for the logged message — so the failure propagates nowhere;
and all remaining queued tasks together with the just-promoted timers still
execute afterwards, in order. -/
theorem c9_task_failure_contained (now : Nat) (s : LoopState) (t : JsTask)
    (rest : List JsTask) (e : String)
    (hrun : s.running = true)
    (hq : s.taskQueue = t :: rest) (he : t.run = some e) :
    (EventLoop.RunIteration now s).running = true ∧
    (EventLoop.RunIteration now s).errors = s.errors ++ [e] ∧
    (EventLoop.RunIteration now s).ran = s.ran ++ [t.label] ∧
    (EventLoop.RunIteration now s).taskQueue =
      rest ++
        ((s.delayedTasks.filter fun en => decide (en.2.due ≤ now)).map
          (fun en => en.2.work)) ∧
    (EventLoop.RunIteration now s).delayedTasks =
      s.delayedTasks.filter (fun en => !decide (en.2.due ≤ now)) ∧
    EventLoop.RunIteration now
        { s with taskQueue := ⟨t.label, none⟩ :: rest } =
      { EventLoop.RunIteration now s with errors := s.errors } ∧
    (EventLoop.RunSteps
        (rest ++
          ((s.delayedTasks.filter fun en => decide (en.2.due ≤ now)).map
            (fun en => en.2.work))).length now
        (EventLoop.RunIteration now s)).ran =
      s.ran ++ [t.label] ++
        (rest ++
          ((s.delayedTasks.filter fun en => decide (en.2.due ≤ now)).map
            (fun en => en.2.work))).map (fun u => u.label) := by
  have hpop := EventLoop.runIteration_pop_due now s t rest hrun hq
  refine ⟨?_, ?_, ?_, ?_, ?_, ?_, ?_⟩
  · rw [hpop]
    exact hrun
  · rw [hpop]
    simp [he]
  · rw [hpop]
  · rw [hpop]
  · rw [hpop]
  · rw [EventLoop.runIteration_pop_due now
      { s with taskQueue := ⟨t.label, none⟩ :: rest } ⟨t.label, none⟩ rest
      (by exact hrun) rfl, hpop]
    simp [Option.toList]
  · have hfifo := EventLoop.runSteps_fifo_no_due
      (rest ++
        ((s.delayedTasks.filter fun en => decide (en.2.due ≤ now)).map
          (fun en => en.2.work)))
      now (EventLoop.RunIteration now s)
      (by rw [hpop]; exact hrun)
      (by rw [hpop]
          exact EventLoop.filter_due_filter_notDue now s.delayedTasks)
      (by rw [hpop])
    rw [hfifo, hpop]

/-- C9, witness: on `loopFailTimers` (front task throws, timer id 1 due,
timer id 2 not due) the failure logs `boom`, the loop stays running, the due
timer's work `taskB` is promoted behind `taskA`, the not-due timer id 2
stays pending, and both remaining tasks still execute in order after the
failing one. -/
theorem c9_witness :
    (EventLoop.RunIteration 10 loopFailTimers).running = true ∧
    (EventLoop.RunIteration 10 loopFailTimers).errors = ["boom"] ∧
    (EventLoop.RunIteration 10 loopFailTimers).taskQueue =
      [taskA, taskB] ∧
    (EventLoop.RunIteration 10 loopFailTimers).delayedTasks =
      [(2, ⟨50, taskA⟩)] ∧
    (EventLoop.RunSteps 2 10 (EventLoop.RunIteration 10 loopFailTimers)).ran =
      [300, 100, 200] := by
  have h := c9_task_failure_contained 10 loopFailTimers taskFail [taskA]
    "boom" rfl rfl rfl
  exact ⟨h.1, h.2.1, h.2.2.2.1, h.2.2.2.2.1, h.2.2.2.2.2.2⟩

/-- C2, counterexample: the identifier `a.js` already ends in `.js`, yet
resolution does not return it unchanged — `ResolveModuleId` appends `.js`
unconditionally, yielding `a.js.js`. -/
theorem c2_counterexample :
    ModuleSystem.ResolveModuleId "a.js" = "a.js.js" ∧
    ModuleSystem.ResolveModuleId "a.js" ≠ "a.js" := by
  refine ⟨?_, ?_⟩ <;> decide

/-- C2, amended: module resolution returns the identifier with `.js` appended
unconditionally — even when the identifier already ends in `.js` — so no
identifier (in particular none ending in `.js`) resolves to itself. -/
theorem c2_amended_always_appends (i : String) :
    ModuleSystem.ResolveModuleId i = i ++ ".js" ∧
    ModuleSystem.ResolveModuleId i ≠ i ∧
    ModuleSystem.ResolveModuleId (i ++ ".js") = i ++ ".js" ++ ".js" := by
  refine ⟨rfl, ?_, rfl⟩
  intro h
  have hlen := congrArg String.length h
  rw [ModuleSystem.ResolveModuleId, String.length_append] at hlen
  have h3 : (".js" : String).length = 3 := by decide
  omega

/-- C4: native-module precedence.  If the identifier matches a registered
native module, `Require` returns that native module's exports with the state
untouched, for every environment — so the result does not depend on the
filesystem, on any resolvable script file, or on a cached script-module
record for the same identifier. -/
theorem c4_native_precedence (env : Env) (s : MSState) (module_id : String)
    (e : VObj)
    (h : ModuleSystem.alookup module_id s.nativeModules = some e) :
    ModuleSystem.Require env s module_id = (e, s) := by
  unfold ModuleSystem.Require
  rw [h]

/-- C4, witness: in `msUtil` the id `util` is simultaneously a native module
(exports 42), a cached script module (exports 99), and resolvable to a
readable file under `envAllOk`; `Require` returns the native exports 42. -/
theorem c4_witness :
    ModuleSystem.alookup "util" msUtil.nativeModules = some 42 ∧
    ModuleSystem.alookup "util" msUtil.modules =
      some ⟨"util", "util.js", 99, true⟩ ∧
    envAllOk.fileOk (ModuleSystem.ResolveModuleId "util") = true ∧
    ModuleSystem.Require envAllOk msUtil "util" = (42, msUtil) :=
  ⟨by decide, by decide, by decide,
   c4_native_precedence envAllOk msUtil "util" 42 (by decide)⟩

/-- C5: module single-load.  For a script-module identifier whose first
`Require` succeeds (not native, not yet cached, load succeeds), the first call
returns the loaded exports, caches the record, and logs the module body's
evaluation; the second `Require` of the same identifier returns the identical
exports reference and leaves the whole state — in particular the evaluation
log — unchanged, so the top-level side effects happen exactly once. -/
theorem c5_single_load (env : Env) (s : MSState) (module_id : String)
    (m2 : ModuleRec) (ev : List String)
    (hn : ModuleSystem.alookup module_id s.nativeModules = none)
    (hm : ModuleSystem.alookup module_id s.modules = none)
    (hl : ModuleSystem.LoadModule env
        ⟨module_id, ModuleSystem.ResolveModuleId module_id, 0, false⟩ =
      (some m2, ev)) :
    ModuleSystem.Require env s module_id =
      (m2.exports,
        { s with modules := (module_id, m2) :: s.modules,
                 evalLog := s.evalLog ++ ev }) ∧
    ModuleSystem.Require env
        { s with modules := (module_id, m2) :: s.modules,
                 evalLog := s.evalLog ++ ev } module_id =
      (m2.exports,
        { s with modules := (module_id, m2) :: s.modules,
                 evalLog := s.evalLog ++ ev }) := by
  constructor
  · rw [ModuleSystem.require_miss_eq env s module_id hn hm, hl]
  · unfold ModuleSystem.Require
    rw [show ModuleSystem.alookup module_id
        ({ s with modules := (module_id, m2) :: s.modules,
                  evalLog := s.evalLog ++ ev } : MSState).nativeModules =
        none from hn]
    simp [ModuleSystem.alookup]

/-- C5, witness: the first `Require` of `m` on the empty system under
`envAllOk` loads and caches exports 7 logging one evaluation of `m.js`; the
second returns the same exports with no further evaluation. -/
theorem c5_witness :
    ModuleSystem.Require envAllOk msEmpty "m" = (7, msM) ∧
    ModuleSystem.Require envAllOk msM "m" = (7, msM) := by
  have h := c5_single_load envAllOk msEmpty "m" ⟨"m", "m.js", 7, true⟩
    ["m.js"] (by decide) (by decide) (by decide)
  exact ⟨h.1, h.2⟩

/-- C3: a failed load is not cached.  If the identifier is neither native nor
cached and the load attempt fails (file unreadable, compile error, or
evaluation error), `Require` returns a freshly allocated empty object, the
module cache is left unchanged, and the identifier still misses the cache — so
a later `Require` retries the load from scratch.  Moreover, for every call of
`Require` whatsoever, if every cached record has `loaded = true` beforehand
then that remains so afterwards: a record with `loaded = false` is never
inserted. -/
theorem c3_load_failure_not_cached (env : Env) (s : MSState)
    (module_id : String) (ev : List String)
    (hn : ModuleSystem.alookup module_id s.nativeModules = none)
    (hm : ModuleSystem.alookup module_id s.modules = none)
    (hl : ModuleSystem.LoadModule env
        ⟨module_id, ModuleSystem.ResolveModuleId module_id, 0, false⟩ =
      (none, ev)) :
    (ModuleSystem.Require env s module_id =
      (s.nextObj,
        { s with nextObj := s.nextObj + 1,
                 evalLog := s.evalLog ++ ev }) ∧
     (ModuleSystem.Require env s module_id).2.modules = s.modules ∧
     ModuleSystem.alookup module_id
       (ModuleSystem.Require env s module_id).2.modules = none) ∧
    (∀ (env2 : Env) (s2 : MSState) (id2 : String),
      (∀ r ∈ s2.modules, r.2.loaded = true) →
      ∀ r ∈ (ModuleSystem.Require env2 s2 id2).2.modules,
        r.2.loaded = true) := by
  have hreq : ModuleSystem.Require env s module_id =
      (s.nextObj,
        { s with nextObj := s.nextObj + 1, evalLog := s.evalLog ++ ev }) := by
    rw [ModuleSystem.require_miss_eq env s module_id hn hm, hl]
  refine ⟨⟨hreq, by rw [hreq], by rw [hreq]; exact hm⟩, ?_⟩
  intro env2 s2 id2 hall r hr
  by_cases hn2 : ∃ e, ModuleSystem.alookup id2 s2.nativeModules = some e
  · obtain ⟨e, hn2⟩ := hn2
    unfold ModuleSystem.Require at hr
    rw [hn2] at hr
    exact hall r hr
  · have hn2' : ModuleSystem.alookup id2 s2.nativeModules = none := by
      cases h' : ModuleSystem.alookup id2 s2.nativeModules with
      | none => rfl
      | some e => exact absurd ⟨e, h'⟩ hn2
    by_cases hm2 : ∃ m, ModuleSystem.alookup id2 s2.modules = some m
    · obtain ⟨m, hm2⟩ := hm2
      unfold ModuleSystem.Require at hr
      rw [hn2', hm2] at hr
      exact hall r hr
    · have hm2' : ModuleSystem.alookup id2 s2.modules = none := by
        cases h' : ModuleSystem.alookup id2 s2.modules with
        | none => rfl
        | some m => exact absurd ⟨m, h'⟩ hm2
      rw [ModuleSystem.require_miss_eq env2 s2 id2 hn2' hm2'] at hr
      cases hl2 : ModuleSystem.LoadModule env2
          ⟨id2, ModuleSystem.ResolveModuleId id2, 0, false⟩ with
      | mk res ev2 =>
        cases res with
        | none =>
          rw [hl2] at hr
          exact hall r hr
        | some mm =>
          rw [hl2] at hr
          simp only at hr
          rcases List.mem_cons.mp hr with h' | h'
          · have : mm.loaded = true :=
              ModuleSystem.loadModule_loaded env2
                ⟨id2, ModuleSystem.ResolveModuleId id2, 0, false⟩ mm ev2 rfl
                hl2
            rw [h']
            exact this
          · exact hall r h'

/-- C3, witness: with no readable files, requiring `x` on the empty system
returns the fresh empty object 0, caches nothing, and the all-loaded cache
invariant is preserved. -/
theorem c3_witness :
    ModuleSystem.Require envNoFile msEmpty "x" =
      (0, { msEmpty with nextObj := 1 }) ∧
    (ModuleSystem.Require envNoFile msEmpty "x").2.modules = [] ∧
    ∀ r ∈ (ModuleSystem.Require envNoFile msEmpty "x").2.modules,
      r.2.loaded = true := by
  have h := c3_load_failure_not_cached envNoFile msEmpty "x" [] (by decide)
    (by decide) (by decide)
  exact ⟨h.1.1, h.1.2.1, h.2 envNoFile msEmpty "x" (by simp [msEmpty])⟩

/-- C10: resolution is total and the not-found branch is dead.
`ResolveModuleId` returns a non-empty string for every identifier — the empty
identifier resolves to `.js` — so for every identifier that is neither native
nor cached, `Require` skips its empty-filename (module-not-found) branch and
proceeds directly to the load attempt: any miss surfaces only as a file-open,
compile, or evaluation failure inside the load. -/
theorem c10_resolution_total :
    (∀ i : String, ModuleSystem.ResolveModuleId i ≠ "") ∧
    ModuleSystem.ResolveModuleId "" = ".js" ∧
    (∀ (env : Env) (s : MSState) (i : String),
      ModuleSystem.alookup i s.nativeModules = none →
      ModuleSystem.alookup i s.modules = none →
      ModuleSystem.Require env s i =
        (match ModuleSystem.LoadModule env
            ⟨i, ModuleSystem.ResolveModuleId i, 0, false⟩ with
         | (none, ev) =>
           (s.nextObj,
             { s with nextObj := s.nextObj + 1,
                      evalLog := s.evalLog ++ ev })
         | (some m2, ev) =>
           (m2.exports,
             { s with modules := (i, m2) :: s.modules,
                      evalLog := s.evalLog ++ ev }))) :=
  ⟨ModuleSystem.resolve_ne_empty, by decide, ModuleSystem.require_miss_eq⟩

/-- C10, witness: the empty identifier is neither native nor cached in
`msEmpty`, resolves to the non-empty filename `.js`, and `Require` reaches
the load attempt, which fails at the file-open step under `envNoFile`. -/
theorem c10_witness :
    ModuleSystem.ResolveModuleId "" ≠ "" ∧
    ModuleSystem.Require envNoFile msEmpty "" =
      (0, { msEmpty with nextObj := 1 }) :=
  ⟨c10_resolution_total.1 "",
   c10_resolution_total.2.2 envNoFile msEmpty "" (by decide) (by decide)⟩
